import Mathlib

/-!
Verification of the retail sales forecasting dashboard (`src/app.py`).

The script is a linear pipeline: read a CSV upload, validate the fixed
schema `{"Order Date", "Sales"}`, coerce the date column (`errors="coerce"`),
drop rows with null date or sales, sort by date, aggregate to monthly totals
(`groupby(... .dt.to_period("M")).sum()` re-expanded to first-of-month
timestamps), show summary metrics (latest month via `iloc[-1]`, YoY growth via
`iloc[-1] / iloc[-13]` guarded by `len > 12`), fit a Prophet model (opaque
third-party call, modelled as a function parameter), compute in-sample MAPE
`np.mean(np.abs((actuals - predictions) / actuals)) * 100` and
`accuracy = 100 - mape`, and export the tail `forecast_horizon` rows of the
forecast as CSV.

Numbers are embedded as exact rationals (`ℚ`).  Where float arithmetic can
produce a non-finite value (division by a zero actual, mean of an empty
array), the embedding returns `none`: `none` means "the float pipeline
produces a non-finite value (inf/NaN) here", `some q` means "the float
pipeline produces a finite value, whose exact-arithmetic counterpart is `q`".
Streamlit control flow is embedded as an `Outcome` value: `st.error` +
`st.stop` becomes `Outcome.halted`, an uncaught exception (e.g. `IndexError`
from `iloc[-1]` on an empty frame) becomes `Outcome.crashed`.
-/

namespace SalesApp

/-- A calendar date as produced by `pd.to_datetime` (year, month, day). -/
structure Date where
  y : Nat
  m : Nat
  d : Nat
deriving DecidableEq, Repr

/-- A calendar month (year, month): the value of `ts.to_period("M")`. -/
abbrev Month := Nat × Nat

/-- `dt.to_period("M")`: the year+month identity of a timestamp. -/
def Date.periodM (dt : Date) : Month := (dt.y, dt.m)

/-- Chronological (lexicographic) order on months, as pandas orders periods. -/
def Month.le (a b : Month) : Prop := a.1 < b.1 ∨ (a.1 = b.1 ∧ a.2 ≤ b.2)

instance : DecidableRel Month.le := fun a b => by
  unfold Month.le; exact inferInstance

instance : IsTotal Month Month.le := ⟨by intro a b; unfold Month.le; omega⟩

instance : IsTrans Month Month.le := ⟨by intro a b c; unfold Month.le; omega⟩

/-- Chronological (lexicographic) order on dates, as pandas compares
timestamps. -/
def Date.le (a b : Date) : Prop :=
  a.y < b.y ∨ (a.y = b.y ∧ (a.m < b.m ∨ (a.m = b.m ∧ a.d ≤ b.d)))

instance : DecidableRel Date.le := fun a b => by
  unfold Date.le; exact inferInstance

instance : IsTotal Date Date.le := ⟨by intro a b; unfold Date.le; omega⟩

instance : IsTrans Date Date.le := ⟨by intro a b c; unfold Date.le; omega⟩

/-- One cell of the raw `Order Date` column: either a string that
`pd.to_datetime` parses to a date, or one it cannot parse (the string-level
parsing itself is third-party and abstracted to this two-case view). -/
inductive DateCell where
  | parseable (dt : Date)
  | garbage
deriving DecidableEq, Repr

/-- `pd.to_datetime(cell, errors="coerce")`: unparseable cells become the
null sentinel `NaT` (here `none`) instead of failing the row. -/
def parseCell : DateCell → Option Date
  | .parseable dt => some dt
  | .garbage => none

/-- One raw uploaded row, restricted to the two columns the pipeline reads:
the raw `Order Date` cell and the `Sales` cell (`none` = missing/NaN). -/
structure RawRow where
  orderDate : DateCell
  sales : Option ℚ
deriving DecidableEq, Repr

/-- A row after `pd.to_datetime(..., errors="coerce")` on `Order Date`:
the date is now a timestamp or the null sentinel. -/
structure PreparedRow where
  orderDate : Option Date
  sales : Option ℚ
deriving DecidableEq, Repr

/-- A CleanRecord: both fields non-null (the shape rows have after
`dropna(subset=["Order Date", "Sales"])`). -/
structure CleanRow where
  date : Date
  sales : ℚ
deriving DecidableEq, Repr

/-- Line 74: `df["Order Date"] = pd.to_datetime(df["Order Date"],
errors="coerce")`. -/
def to_datetime (rows : List RawRow) : List PreparedRow :=
  rows.map fun r => ⟨parseCell r.orderDate, r.sales⟩

/-- Line 75: `df = df.dropna(subset=["Order Date", "Sales"])`. -/
def dropna (rows : List PreparedRow) : List PreparedRow :=
  rows.filter fun r => r.orderDate.isSome && r.sales.isSome

/-- The date key a prepared row is sorted by; rows reaching the sort have a
non-null date (the `dropna` on line 75 precedes the sort on line 76), so the
default for `none` is never observed. -/
def PreparedRow.dateOf (r : PreparedRow) : Date := r.orderDate.getD ⟨0, 0, 0⟩

/-- Order on prepared rows used by `sort_values("Order Date")`. -/
def PreparedRow.dle (r s : PreparedRow) : Prop := Date.le r.dateOf s.dateOf

instance : DecidableRel PreparedRow.dle := fun a b => by
  unfold PreparedRow.dle; exact inferInstance

instance : IsTotal PreparedRow PreparedRow.dle :=
  ⟨fun a b => total_of Date.le a.dateOf b.dateOf⟩

instance : IsTrans PreparedRow PreparedRow.dle :=
  ⟨fun _ _ _ hab hbc => Trans.trans (r := Date.le) hab hbc⟩

/-- Line 76: `df = df.sort_values("Order Date")` (ascending). -/
def sort_values (rows : List PreparedRow) : List PreparedRow :=
  rows.insertionSort PreparedRow.dle

/-- Lines 74-76 in order: coerce dates, drop nulls, sort by date. -/
def prepare (rows : List RawRow) : List PreparedRow :=
  sort_values (dropna (to_datetime rows))

/-- Bridge from the dynamically typed frame to typed clean records: after
`dropna` every row has both fields present, so the defaults are never
observed. -/
def toClean (r : PreparedRow) : CleanRow :=
  ⟨r.orderDate.getD ⟨0, 0, 0⟩, r.sales.getD 0⟩

/-- The clean record sequence the aggregator receives (lines 74-76). -/
def cleanRows (rows : List RawRow) : List CleanRow :=
  (prepare rows).map toClean

/-- A MonthlyPoint: `period_start` (first-of-month timestamp, line 84) and
the month's `Sales` total. -/
structure MonthlyPoint where
  period_start : Date
  total_sales : ℚ
deriving DecidableEq, Repr

/-- The distinct months present in the rows, in ascending order: the group
keys of `df.groupby(df["Order Date"].dt.to_period("M"))` (pandas sorts group
keys ascending). -/
def monthsOf (rows : List CleanRow) : List Month :=
  ((rows.map fun r => r.date.periodM).dedup).insertionSort Month.le

/-- The sum of `Sales` over the rows of one month group. -/
def monthTotal (rows : List CleanRow) (M : Month) : ℚ :=
  ((rows.filter fun r => decide (r.date.periodM = M)).map fun r => r.sales).sum

/-- Lines 79-84: group by calendar month, sum `Sales` per group, and
re-expand each period key to its first-of-month timestamp
(`.dt.to_timestamp()`). -/
def monthly_sales (rows : List CleanRow) : List MonthlyPoint :=
  (monthsOf rows).map fun M => ⟨⟨M.1, M.2, 1⟩, monthTotal rows M⟩

/-- Lines 93-96: YoY growth `(iloc[-1] / iloc[-13] - 1) * 100` when the
monthly series has more than 12 points, else `np.nan` (`none`), which line
101 displays as `"N/A"`.  Division is exact rational division. -/
def growth_rate (sales : List ℚ) : Option ℚ :=
  if h : 12 < sales.length then
    some ((sales.get ⟨sales.length - 1, by omega⟩ /
           sales.get ⟨sales.length - 13, by omega⟩ - 1) * 100)
  else none

/-- Line 129: `predictions = forecast.iloc[:len(df_prophet)]['yhat']` — the
first `n` rows of the forecast frame, column `yhat`. -/
structure ForecastPoint where
  ds : Date
  yhat : ℚ
  yhat_lower : ℚ
  yhat_upper : ℚ
deriving DecidableEq, Repr

def inSample (fc : List ForecastPoint) (n : Nat) : List ℚ :=
  (fc.take n).map fun p => p.yhat

/-- Line 130: `mape = np.mean(np.abs((actuals - predictions) / actuals)) *
100`.  The subtraction/division are elementwise over positionally aligned
series; `np.abs` is applied to the quotient.  Result is `none` when the
float computation is non-finite: some actual is `0` (inf/NaN term) or the
point set is empty (mean of an empty array is NaN). -/
def mape (actuals predictions : List ℚ) : Option ℚ :=
  let pairs := actuals.zip predictions
  if pairs.isEmpty then none
  else if pairs.all fun ap => decide ((ap.1 : ℚ) ≠ 0) then
    some (((pairs.map fun ap => |(ap.1 - ap.2) / ap.1|).sum / pairs.length) * 100)
  else none

/-- Line 131: `accuracy = 100 - mape` (non-finite when `mape` is). -/
def accuracy (actuals predictions : List ℚ) : Option ℚ :=
  (mape actuals predictions).map fun v => 100 - v

/-- Modelled from the spec: `DivisionGuard` — the accuracy calculation the
spec requires, in which points with `actual == 0` are excluded from the MAPE
average (the source, line 130, does not enforce this).  Defined only to
compare against `mape`. -/
def mape_divGuard (actuals predictions : List ℚ) : Option ℚ :=
  let pairs := (actuals.zip predictions).filter fun ap => decide ((ap.1 : ℚ) ≠ 0)
  if pairs.isEmpty then none
  else some (((pairs.map fun ap => |(ap.1 - ap.2) / ap.1|).sum / pairs.length) * 100)

/-- The per-point error formula exactly as claim C4 words it — absolute
value on the numerator only, `|actual − predicted| / actual` — for
comparison with the source's `mape`, which takes the absolute value of the
whole quotient. -/
def mapeSpecLiteral (actuals predictions : List ℚ) : Option ℚ :=
  let pairs := actuals.zip predictions
  if pairs.isEmpty then none
  else if pairs.all fun ap => decide ((ap.1 : ℚ) ≠ 0) then
    some (((pairs.map fun ap => |ap.1 - ap.2| / ap.1).sum / pairs.length) * 100)
  else none

/-- `DataFrame.tail(n)`: the last `n` rows (all rows when fewer). -/
def tail_pd (l : List ForecastPoint) (n : Nat) : List ForecastPoint :=
  l.drop (l.length - n)

/-- Line 159: `forecast[["ds", "yhat", "yhat_lower", "yhat_upper"]]
.tail(forecast_horizon)`. -/
def forecast_table (fc : List ForecastPoint) (forecast_horizon : Nat) :
    List ForecastPoint :=
  tail_pd fc forecast_horizon

/-! ### CSV export codec

`forecast_table.to_csv(index=False)` writes a header line followed by one
line per row, each cell a decimal rendering of the value.  The export is
modelled at cell granularity: a CSV document is a `List (List String)`
(lines of cells), the header first.  Numeric cells are rendered by an
injective exact codec (standing in for float `repr`, which is likewise
injective on the values it prints): "within formatting precision" in the
round-trip property means the codec is exact on rationals. -/

/-- The decimal digit character for `d` (codepoint 48 + d; callers keep
`d < 10`). -/
def digitChar (d : Nat) : Char := Char.ofNat (48 + min d 9)

/-- Inverse of `digitChar`: the value of a decimal digit character. -/
def charDigit (c : Char) : Option Nat :=
  if 48 ≤ c.toNat ∧ c.toNat ≤ 57 then some (c.toNat - 48) else none

/-- Decimal rendering of a natural number, most significant digit first. -/
def renderNat (n : Nat) : List Char :=
  if n = 0 then ['0'] else ((Nat.digits 10 n).map digitChar).reverse

/-- Read a digit string back into its digit list (in text order). -/
def parseDigits : List Char → Option (List Nat)
  | [] => some []
  | c :: cs => (charDigit c).bind fun d =>
      (parseDigits cs).map fun ds => d :: ds

/-- Parse a decimal natural number (most significant digit first). -/
def parseNatChars (cs : List Char) : Option Nat :=
  (parseDigits cs).map fun ds => Nat.ofDigits 10 ds.reverse

/-- Decimal rendering of an integer (leading minus sign when negative). -/
def renderInt (i : Int) : List Char :=
  if i < 0 then '-' :: renderNat i.natAbs else renderNat i.natAbs

/-- Parse an optionally minus-signed decimal integer. -/
def parseIntChars (cs : List Char) : Option Int :=
  if cs.head? = some '-' then
    (parseNatChars cs.tail).map fun (n : Nat) => -(n : Int)
  else
    (parseNatChars cs).map fun (n : Nat) => (n : Int)

/-- Exact rendering of a rational as `numerator/denominator`. -/
def renderRat (q : ℚ) : List Char :=
  renderInt q.num ++ '/' :: renderNat q.den

/-- Parse a rational of the form `numerator/denominator`. -/
def parseRatChars (cs : List Char) : Option ℚ :=
  if (cs.dropWhile fun c => !(c == '/')).head? = some '/' then
    (parseIntChars (cs.takeWhile fun c => !(c == '/'))).bind fun n =>
      (parseNatChars (cs.dropWhile fun c => !(c == '/')).tail).map fun (d : Nat) =>
        (n : ℚ) / (d : ℚ)
  else none

/-- ISO-style rendering of a date, `year-month-day`. -/
def renderDate (dt : Date) : List Char :=
  renderNat dt.y ++ ('-' :: (renderNat dt.m ++ ('-' :: renderNat dt.d)))

/-- Parse a `year-month-day` date. -/
def parseDateChars (cs : List Char) : Option Date :=
  (parseNatChars (cs.takeWhile fun c => !(c == '-'))).bind fun yy =>
    (parseNatChars (((cs.dropWhile fun c => !(c == '-')).tail).takeWhile
        fun c => !(c == '-'))).bind fun mm =>
      (parseNatChars ((((cs.dropWhile fun c => !(c == '-')).tail).dropWhile
          fun c => !(c == '-')).tail)).map fun dd => Date.mk yy mm dd

/-- Line 160: the renamed export header. -/
def csvHeader : List String :=
  ["Date", "Expected Sales", "Lower Bound", "Upper Bound"]

/-- One exported CSV line for a forecast row. -/
def renderRow (p : ForecastPoint) : List String :=
  [String.mk (renderDate p.ds), String.mk (renderRat p.yhat),
   String.mk (renderRat p.yhat_lower), String.mk (renderRat p.yhat_upper)]

/-- Line 169: `forecast_table.to_csv(index=False)` — header line, then one
line per row, no index column. -/
def to_csv (tbl : List ForecastPoint) : List (List String) :=
  csvHeader :: tbl.map renderRow

/-- Parse one data line of the exported CSV back into a forecast row. -/
def parseRow (cells : List String) : Option ForecastPoint :=
  match cells with
  | [a, b, c, e] =>
    (parseDateChars a.data).bind fun ds =>
      (parseRatChars b.data).bind fun yh =>
        (parseRatChars c.data).bind fun lo =>
          (parseRatChars e.data).map fun hi => ForecastPoint.mk ds yh lo hi
  | _ => none

/-- Parse the data lines of an exported CSV. -/
def parseRows : List (List String) → Option (List ForecastPoint)
  | [] => some []
  | r :: rs => (parseRow r).bind fun p =>
      (parseRows rs).map fun ps => p :: ps

/-- Parse an exported CSV document: require the header line, then parse
every data line. -/
def parseCsv (lines : List (List String)) : Option (List ForecastPoint) :=
  match lines with
  | [] => none
  | h :: rows => if h = csvHeader then parseRows rows else none

/-! ### The top-level script as a pipeline -/

/-- Line 66: `required_cols = {"Order Date", "Sales"}`. -/
def required_cols : List String := ["Order Date", "Sales"]

/-- The two halting `st.error` sites of the script: the unreadable-file
handler (lines 62-64) and the schema check (lines 67-69, whose message
names `required_cols`). -/
inductive AppError where
  | parseError
  | schemaError (named : List String)
deriving DecidableEq, Repr

/-- The session-visible results the claims concern, assembled by the
successful path of the script. -/
structure Output where
  monthly : List MonthlyPoint
  growth : Option ℚ
  mapeOut : Option ℚ
  accuracyOut : Option ℚ
  csvLines : List (List String)
deriving DecidableEq, Repr

/-- How one run of the script ends: a graceful `st.error`/`st.stop` halt, an
uncaught exception (crash), or normal completion. -/
inductive Outcome where
  | halted (e : AppError)
  | crashed
  | done (o : Output)
deriving DecidableEq, Repr

/-- Sidebar configuration (line 32): the forecast horizon slider. -/
structure Config where
  forecast_horizon : Nat
deriving DecidableEq, Repr

/-- The script, lines 60-175, as one function.

* `upload` is the result of `pd.read_csv(uploaded_file, encoding="latin1")`:
  `none` when the reader raises (any exception is caught on line 62),
  otherwise the column-name list and rows.  The reader itself is
  third-party.
* `fitPredict` is the opaque Prophet fit/predict call (lines 108-120),
  passed as a parameter: it receives the monthly history and the horizon
  and returns the forecast frame (in-sample rows then future rows).

Order of effects follows the source: read (60-64), schema check (66-69),
prepare (74-76), monthly aggregation (79-84), `iloc[-1]` on the monthly
frame (line 91, raises `IndexError` when the frame is empty), YoY growth
(93-96), model fit and forecast (108-120), MAPE/accuracy (128-131), export
table and CSV (159-169). -/
def pipeline (upload : Option (List String × List RawRow))
    (fitPredict : List MonthlyPoint → Nat → List ForecastPoint)
    (cfg : Config) : Outcome :=
  match upload with
  | none => .halted .parseError
  | some (cols, rows) =>
    if required_cols.all fun c => cols.contains c then
      let clean := cleanRows rows
      let ms := monthly_sales clean
      match ms.getLast? with
      | none => .crashed
      | some _ =>
        let salesCol := ms.map fun p => p.total_sales
        let g := growth_rate salesCol
        let fc := fitPredict ms cfg.forecast_horizon
        let preds := inSample fc ms.length
        let mp := mape salesCol preds
        let ac := accuracy salesCol preds
        let tbl := forecast_table fc cfg.forecast_horizon
        .done (Output.mk ms g mp ac (to_csv tbl))
    else .halted (.schemaError required_cols)

/-! ### Codec lemmas -/

theorem data_mk (cs : List Char) : (String.mk cs).data = cs := rfl

theorem charDigit_digitChar {d : Nat} (h : d < 10) :
    charDigit (digitChar d) = some d := by
  interval_cases d <;> decide

theorem mem_renderNat_isSome {n : Nat} {c : Char} (hc : c ∈ renderNat n) :
    (charDigit c).isSome := by
  unfold renderNat at hc
  by_cases h : n = 0
  · rw [if_pos h] at hc
    simp only [List.mem_singleton] at hc
    subst hc; decide
  · rw [if_neg h, List.mem_reverse] at hc
    rcases List.mem_map.mp hc with ⟨d, hd, rfl⟩
    rw [charDigit_digitChar (Nat.digits_lt_base (by norm_num) hd)]
    rfl

theorem parseDigits_map_digitChar {ds : List Nat} (h : ∀ d ∈ ds, d < 10) :
    parseDigits (ds.map digitChar) = some ds := by
  induction ds with
  | nil => rfl
  | cons d t ih =>
    simp only [List.map_cons, parseDigits]
    rw [charDigit_digitChar (h d (List.mem_cons_self d t)),
      ih fun x hx => h x (List.mem_cons_of_mem d hx)]
    rfl

theorem parseNatChars_renderNat (n : Nat) :
    parseNatChars (renderNat n) = some n := by
  unfold renderNat parseNatChars
  by_cases h : n = 0
  · subst h; rfl
  · rw [if_neg h, ← List.map_reverse,
      parseDigits_map_digitChar
        fun d hd => Nat.digits_lt_base (by norm_num) (List.mem_reverse.mp hd)]
    simp [Nat.ofDigits_digits]

theorem renderNat_ne_nil (n : Nat) : renderNat n ≠ [] := by
  unfold renderNat
  by_cases h : n = 0
  · simp [h]
  · rw [if_neg h]
    simp [Nat.digits_ne_nil_iff_ne_zero, h]

theorem parseIntChars_renderInt (i : Int) :
    parseIntChars (renderInt i) = some i := by
  unfold renderInt parseIntChars
  by_cases h : i < 0
  · rw [if_pos h,
      if_pos (show ('-' :: renderNat i.natAbs).head? = some '-' from rfl),
      List.tail_cons, parseNatChars_renderNat]
    simp only [Option.map_some']
    congr 1
    rw [Int.ofNat_natAbs_of_nonpos (le_of_lt h), neg_neg]
  · rw [if_neg h]
    cases hcs : renderNat i.natAbs with
    | nil => exact absurd hcs (renderNat_ne_nil _)
    | cons c t =>
      have hdig : (charDigit c).isSome :=
        mem_renderNat_isSome (hcs ▸ List.mem_cons_self c t)
      have hcne : c ≠ '-' := by
        intro he
        rw [he] at hdig
        exact absurd hdig (by decide)
      rw [if_neg (show ¬ ((c :: t).head? = some '-') by simp [hcne]),
        ← hcs, parseNatChars_renderNat]
      simp only [Option.map_some']
      congr 1
      exact Int.natAbs_of_nonneg (not_lt.mp h)

theorem takeWhile_append_cons (x : Char) {p : Char → Bool} {a b : List Char}
    (ha : ∀ c ∈ a, p c = true) (hx : p x = false) :
    (a ++ x :: b).takeWhile p = a := by
  induction a with
  | nil => simp [List.takeWhile_cons, hx]
  | cons c t ih =>
    have hc : p c = true := ha c (List.mem_cons_self c t)
    simp [List.takeWhile_cons, hc,
      ih fun y hy => ha y (List.mem_cons_of_mem c hy)]

theorem dropWhile_append_cons (x : Char) {p : Char → Bool} {a b : List Char}
    (ha : ∀ c ∈ a, p c = true) (hx : p x = false) :
    (a ++ x :: b).dropWhile p = x :: b := by
  induction a with
  | nil => simp [List.dropWhile_cons, hx]
  | cons c t ih =>
    have hc : p c = true := ha c (List.mem_cons_self c t)
    simp [List.dropWhile_cons, hc,
      ih fun y hy => ha y (List.mem_cons_of_mem c hy)]

theorem renderNat_pred_ne (x : Char) {n : Nat} (hx : charDigit x = none) :
    ∀ c ∈ renderNat n, (!(c == x)) = true := by
  intro c hc
  have h1 := mem_renderNat_isSome hc
  have h2 : c ≠ x := by
    intro he
    rw [he, hx] at h1
    simp at h1
  simp [h2]

theorem renderInt_pred_ne_slash (i : Int) :
    ∀ c ∈ renderInt i, (!(c == '/')) = true := by
  intro c hc
  unfold renderInt at hc
  by_cases h : i < 0
  · rw [if_pos h] at hc
    rcases List.mem_cons.mp hc with h1 | h1
    · subst h1; rfl
    · exact renderNat_pred_ne '/' (by decide) c h1
  · rw [if_neg h] at hc
    exact renderNat_pred_ne '/' (by decide) c hc

theorem parseRatChars_renderRat (q : ℚ) :
    parseRatChars (renderRat q) = some q := by
  unfold renderRat parseRatChars
  rw [dropWhile_append_cons '/' (renderInt_pred_ne_slash q.num) rfl,
    takeWhile_append_cons '/' (renderInt_pred_ne_slash q.num) rfl]
  simp [parseIntChars_renderInt, parseNatChars_renderNat, Rat.num_div_den]

theorem parseDateChars_renderDate (dt : Date) :
    parseDateChars (renderDate dt) = some dt := by
  unfold renderDate parseDateChars
  rw [takeWhile_append_cons '-' (renderNat_pred_ne '-' (by decide)) rfl,
    dropWhile_append_cons '-' (renderNat_pred_ne '-' (by decide)) rfl]
  simp only [List.tail_cons]
  rw [takeWhile_append_cons '-' (renderNat_pred_ne '-' (by decide)) rfl,
    dropWhile_append_cons '-' (renderNat_pred_ne '-' (by decide)) rfl]
  simp only [List.tail_cons, parseNatChars_renderNat, Option.map_some']
  rfl

theorem parseRow_renderRow (p : ForecastPoint) :
    parseRow (renderRow p) = some p := by
  unfold renderRow parseRow
  simp only [data_mk, parseDateChars_renderDate, parseRatChars_renderRat]
  rfl

theorem parseRows_map_renderRow (tbl : List ForecastPoint) :
    parseRows (tbl.map renderRow) = some tbl := by
  induction tbl with
  | nil => rfl
  | cons p t ih =>
    simp only [List.map_cons, parseRows, parseRow_renderRow, ih]
    rfl

/-! ### Aggregation lemmas -/

theorem monthsOf_nodup (rows : List CleanRow) : (monthsOf rows).Nodup :=
  (List.perm_insertionSort Month.le _).nodup_iff.mpr (List.nodup_dedup _)

theorem mem_monthsOf {rows : List CleanRow} {M : Month} :
    M ∈ monthsOf rows ↔ ∃ r ∈ rows, r.date.periodM = M := by
  unfold monthsOf
  rw [List.mem_insertionSort, List.mem_dedup]
  exact List.mem_map

theorem monthsOf_sorted_lt (rows : List CleanRow) :
    (monthsOf rows).Pairwise fun a b => a.1 < b.1 ∨ (a.1 = b.1 ∧ a.2 < b.2) := by
  have hs : (monthsOf rows).Pairwise Month.le :=
    List.sorted_insertionSort Month.le _
  refine (hs.and (monthsOf_nodup rows)).imp ?_
  rintro ⟨a1, a2⟩ ⟨b1, b2⟩ ⟨hab, hne⟩
  change a1 < b1 ∨ (a1 = b1 ∧ a2 ≤ b2) at hab
  rw [Ne, Prod.mk.injEq, not_and] at hne
  show a1 < b1 ∨ (a1 = b1 ∧ a2 < b2)
  omega

/-! ### Claims -/

/-- C1: the claim requires zero-actual points to be excluded from the MAPE
average so that MAPE and Accuracy stay finite; line 130 of `src/app.py` does
not exclude them.  On actuals `[0, 100]` with in-sample predictions
`[50, 90]` (one zero-actual point, one nonzero), the code's `mape` — and
hence `accuracy` — is non-finite (`none`), while the guarded evaluator the
spec mandates (`mape_divGuard`) yields the finite value `10`. -/
theorem C1_zero_actual_not_excluded :
    mape [0, 100] [50, 90] = none
    ∧ accuracy [0, 100] [50, 90] = none
    ∧ mape_divGuard [0, 100] [50, 90] = some 10 := by
  refine ⟨by decide, ?_, ?_⟩
  · norm_num [accuracy, mape, List.zip, List.zipWith]
  · norm_num [mape_divGuard, List.zip, List.zipWith, List.filter, abs]

/-- C2: the claim requires a graceful halt (user message, no forecast, no
crash) when cleaning drops every row; instead line 91
(`monthly_sales.iloc[-1]`) raises `IndexError` on the empty frame.  An
upload with the required columns whose only row has an unparseable date
makes the modelled pipeline crash. -/
theorem C2_empty_series_crashes :
    pipeline (some (required_cols, [RawRow.mk .garbage (some 5)]))
      (fun _ _ => []) (Config.mk 6) = .crashed := by
  rfl

/-- C3: the Aggregator produces exactly one MonthlyPoint per distinct
calendar month of the input (the month keys are duplicate-free, and a month
occurs iff some record's date falls in it); every point's `total_sales` is
the sum of `sales` over the records of its month and its `period_start` has
day 1; and the sequence is strictly ascending by calendar month. -/
theorem C3_monthly_aggregation (rows : List CleanRow) :
    ((monthly_sales rows).map fun p => p.period_start.periodM).Nodup
    ∧ (∀ M : Month,
        (M ∈ (monthly_sales rows).map fun p => p.period_start.periodM) ↔
          ∃ r ∈ rows, r.date.periodM = M)
    ∧ (∀ p ∈ monthly_sales rows,
        p.total_sales =
          ((rows.filter fun r =>
            decide (r.date.periodM = p.period_start.periodM)).map
              fun r => r.sales).sum
          ∧ p.period_start.d = 1)
    ∧ (monthly_sales rows).Pairwise fun p q =>
        p.period_start.y < q.period_start.y
        ∨ (p.period_start.y = q.period_start.y
            ∧ p.period_start.m < q.period_start.m) := by
  have hmap : ((monthly_sales rows).map fun p => p.period_start.periodM) =
      monthsOf rows := by
    unfold monthly_sales
    rw [List.map_map]
    have hcomp : ((fun p : MonthlyPoint => p.period_start.periodM) ∘
        fun M : Month =>
          (⟨⟨M.1, M.2, 1⟩, monthTotal rows M⟩ : MonthlyPoint)) = id := by
      funext M
      rfl
    rw [hcomp, List.map_id]
  refine ⟨hmap ▸ monthsOf_nodup rows, ?_, ?_, ?_⟩
  · intro M
    rw [hmap]
    exact mem_monthsOf
  · intro p hp
    unfold monthly_sales at hp
    rcases List.mem_map.mp hp with ⟨M, _, rfl⟩
    exact ⟨rfl, rfl⟩
  · unfold monthly_sales
    rw [List.pairwise_map]
    exact monthsOf_sorted_lt rows

/-- C4 counterexample: the claim states the per-point term as
`|actual − predicted| / actual`, but line 130 computes
`np.abs((actuals − predictions) / actuals)` — the absolute value of the
whole quotient.  The two differ on a negative actual: with actuals
`[-100]` and predictions `[0]` the code's MAPE is `100` while the claim's
formula gives `-100`. -/
theorem C4_counterexample :
    mape [-100] [0] = some 100
    ∧ mapeSpecLiteral [-100] [0] = some (-100)
    ∧ mape [-100] [0] ≠ mapeSpecLiteral [-100] [0] := by
  refine ⟨?_, ?_, ?_⟩
  · norm_num [mape, List.zip, List.zipWith, List.all, abs]
  · norm_num [mapeSpecLiteral, List.zip, List.zipWith, List.all]
  · norm_num [mape, mapeSpecLiteral, List.zip, List.zipWith, List.all, abs]

/-- C4 (amended): over any aligned point set with nonzero actuals, MAPE
equals 100 times the mean of `|(actual − predicted) / actual|` (absolute
value of the quotient), hence MAPE ≥ 0; Accuracy equals exactly
`100 − MAPE` with no clamping, so Accuracy is negative whenever MAPE
exceeds 100. -/
theorem C4_mape_accuracy (actuals predictions : List ℚ)
    (hne : actuals.zip predictions ≠ [])
    (hz : ∀ ap ∈ actuals.zip predictions, ap.1 ≠ 0) :
    mape actuals predictions
      = some ((((actuals.zip predictions).map
          fun ap => |(ap.1 - ap.2) / ap.1|).sum /
            ((actuals.zip predictions).length : ℚ)) * 100)
    ∧ ∀ v, mape actuals predictions = some v →
        0 ≤ v
        ∧ accuracy actuals predictions = some (100 - v)
        ∧ (100 < v → 100 - v < 0) := by
  have hmape : mape actuals predictions
      = some ((((actuals.zip predictions).map
          fun ap => |(ap.1 - ap.2) / ap.1|).sum /
            ((actuals.zip predictions).length : ℚ)) * 100) := by
    unfold mape
    rw [if_neg (by simpa using hne),
      if_pos (by rw [List.all_eq_true]; intro x hx; simpa using hz x hx)]
  refine ⟨hmape, ?_⟩
  intro v hv
  rw [hmape] at hv
  injection hv with hv
  subst hv
  refine ⟨?_, ?_, ?_⟩
  · refine mul_nonneg (div_nonneg (List.sum_nonneg ?_) (Nat.cast_nonneg _))
      (by norm_num)
    intro x hx
    rcases List.mem_map.mp hx with ⟨ap, _, rfl⟩
    exact abs_nonneg _
  · unfold accuracy
    rw [hmape]
    rfl
  · intro h100
    linarith

/-- C4 witness: on actuals `[100]` and predictions `[90]` the amended claim
yields MAPE `10` and Accuracy `90`. -/
theorem C4_witness :
    mape [100] [90] = some 10 ∧ accuracy [100] [90] = some 90 := by
  have h := C4_mape_accuracy [100] [90] (by decide) (by decide)
  have h1 : mape [100] [90] = some 10 := by
    rw [h.1]
    norm_num [List.zip, List.zipWith, abs]
  have hacc := (h.2 10 h1).2.1
  rw [show (100 - 10 : ℚ) = 90 by norm_num] at hacc
  exact ⟨h1, hacc⟩

/-- C5: the Normalizer is, in order, date coercion (line 74), null dropping
(line 75), and ascending sort by date (line 76) — this variant has no
category filter control, so the claim's conditional filtering step is never
active and retains all rows — and when the input has at least one row with
a parseable date and non-null sales, the output is non-empty, contains no
null dates and no null sales values, and is sorted ascending by date. -/
theorem C5_normalizer (rows : List RawRow)
    (h : ∃ r ∈ rows, (parseCell r.orderDate).isSome ∧ r.sales.isSome) :
    prepare rows = sort_values (dropna (to_datetime rows))
    ∧ (∀ p ∈ prepare rows, p.orderDate.isSome ∧ p.sales.isSome)
    ∧ prepare rows ≠ []
    ∧ (prepare rows).Pairwise PreparedRow.dle := by
  refine ⟨rfl, ?_, ?_, List.sorted_insertionSort _ _⟩
  · intro p hp
    have hp2 : p ∈ dropna (to_datetime rows) := by
      unfold prepare sort_values at hp
      exact (List.mem_insertionSort _).mp hp
    unfold dropna at hp2
    have hfil := (List.mem_filter.mp hp2).2
    rw [Bool.and_eq_true] at hfil
    exact ⟨hfil.1, hfil.2⟩
  · rcases h with ⟨r, hr, hd, hs⟩
    have hmem : (PreparedRow.mk (parseCell r.orderDate) r.sales)
        ∈ dropna (to_datetime rows) := by
      unfold dropna to_datetime
      rw [List.mem_filter]
      refine ⟨List.mem_map.mpr ⟨r, hr, rfl⟩, ?_⟩
      rw [Bool.and_eq_true]
      exact ⟨hd, hs⟩
    have hmem2 : (PreparedRow.mk (parseCell r.orderDate) r.sales)
        ∈ prepare rows := by
      unfold prepare sort_values
      exact (List.mem_insertionSort _).mpr hmem
    exact List.ne_nil_of_mem hmem2

/-- C5 witness: a single parseable row yields a non-empty normalized
output. -/
theorem C5_witness :
    prepare [RawRow.mk (.parseable (Date.mk 2020 1 15)) (some 10)] ≠ [] :=
  (C5_normalizer [RawRow.mk (.parseable (Date.mk 2020 1 15)) (some 10)]
    ⟨RawRow.mk (.parseable (Date.mk 2020 1 15)) (some 10),
      List.mem_cons_self _ _, by decide, by decide⟩).2.2.1

/-- C6: when a required column (`Order Date` or `Sales`) is absent from the
parsed table, the script halts at the schema check (lines 66-69) with a
message naming `required_cols` — a superset of the missing columns — and no
forecast is computed: the outcome is the same halt for every possible
`fitPredict` function. -/
theorem C6_schema_error (cols : List String) (rows : List RawRow)
    (fitPredict : List MonthlyPoint → Nat → List ForecastPoint) (cfg : Config)
    (h : ∃ c ∈ required_cols, cols.contains c = false) :
    pipeline (some (cols, rows)) fitPredict cfg
      = .halted (.schemaError required_cols) := by
  have hall : ¬ (required_cols.all (fun c => cols.contains c) = true) := by
    rw [List.all_eq_true]
    rcases h with ⟨c, hc, hfalse⟩
    intro hforall
    have := hforall c hc
    rw [hfalse] at this
    exact Bool.false_ne_true this
  simp only [pipeline]
  rw [if_neg hall]

/-- C6 witness: a table with columns `Sales_Value` and `Order Date` but no
`Sales` halts with the schema error and computes no forecast. -/
theorem C6_witness :
    pipeline (some (["Sales_Value", "Order Date"], []))
      (fun _ _ => []) (Config.mk 6) = .halted (.schemaError required_cols) :=
  C6_schema_error ["Sales_Value", "Order Date"] [] (fun _ _ => [])
    (Config.mk 6) (by decide)

/-- C7: the CSV export is a round-trip of the forecast window: when the
forecast frame has `n + horizon` rows (in-sample plus future), the exported
document starts with the header row, its data rows are exactly the
`horizon` tail rows of the forecast, and parsing the export back recovers
those rows exactly. -/
theorem C7_csv_export (fc : List ForecastPoint) (n horizon : Nat)
    (hlen : fc.length = n + horizon) :
    (to_csv (forecast_table fc horizon)).head? = some csvHeader
    ∧ (forecast_table fc horizon).length = horizon
    ∧ parseCsv (to_csv (forecast_table fc horizon))
        = some (forecast_table fc horizon) := by
  refine ⟨rfl, ?_, ?_⟩
  · unfold forecast_table tail_pd
    rw [List.length_drop]
    omega
  · show (if csvHeader = csvHeader then
        parseRows ((forecast_table fc horizon).map renderRow) else none)
      = some (forecast_table fc horizon)
    rw [if_pos rfl]
    exact parseRows_map_renderRow _

/-- C7 witness: a two-row forecast with a one-month horizon exports exactly
one data row. -/
theorem C7_witness :
    (forecast_table [ForecastPoint.mk (Date.mk 2020 1 1) 5 4 6,
      ForecastPoint.mk (Date.mk 2020 2 1) 7 6 8] 1).length = 1 :=
  (C7_csv_export [ForecastPoint.mk (Date.mk 2020 1 1) 5 4 6,
    ForecastPoint.mk (Date.mk 2020 2 1) 7 6 8] 1 1 rfl).2.1

/-- C8: when `pd.read_csv` cannot read the upload (the exception handler on
lines 60-64 catches every reader failure), the session halts with the
parse-error message before anything else runs: the outcome is the same
graceful halt — not a crash — for every `fitPredict` and configuration. -/
theorem C8_parse_error
    (fitPredict : List MonthlyPoint → Nat → List ForecastPoint)
    (cfg : Config) :
    pipeline none fitPredict cfg = .halted .parseError
    ∧ pipeline none fitPredict cfg ≠ .crashed := by
  refine ⟨rfl, ?_⟩
  intro hcontra
  rw [show pipeline none fitPredict cfg = .halted .parseError from rfl]
    at hcontra
  exact Outcome.noConfusion hcontra

/-- C9: the YoY growth metric takes the value
`(iloc[-1] / iloc[-13] - 1) * 100` exactly when the monthly series has more
than 12 points — both index accesses then being in bounds — and is the NaN
sentinel (displayed `N/A`) otherwise, so the `iloc[-13]` access never
happens on a shorter series. -/
theorem C9_growth_guard (s : List ℚ) :
    ((growth_rate s).isSome ↔ 12 < s.length)
    ∧ (∀ h : 12 < s.length,
        growth_rate s = some ((s.get ⟨s.length - 1, by omega⟩ /
          s.get ⟨s.length - 13, by omega⟩ - 1) * 100))
    ∧ (s.length ≤ 12 → growth_rate s = none) := by
  unfold growth_rate
  refine ⟨?_, ?_, ?_⟩
  · by_cases h : 12 < s.length
    · rw [dif_pos h]
      simpa using h
    · rw [dif_neg h]
      simpa using h
  · intro h
    rw [dif_pos h]
  · intro h
    rw [dif_neg (by omega)]

/-- C9 witness: a 13-point series with first value 100 and last value 200
has YoY growth 100%. -/
theorem C9_witness :
    growth_rate [100, 1, 1, 1, 1, 1, 1, 1, 1, 1, 1, 1, 200] = some 100 := by
  have h := (C9_growth_guard [100, 1, 1, 1, 1, 1, 1, 1, 1, 1, 1, 1, 200]).2.1
    (by norm_num)
  rw [h]
  norm_num [List.get]

/-- C10: the Accuracy Evaluator aligns actuals and predictions by position:
the in-sample predictions are the first `len(history)` rows of the forecast
(`iloc[:len(df_prophet)]`), and when the forecast has `len(history) +
horizon` rows the MAPE point set has exactly `len(history)` terms. -/
theorem C10_positional (ms : List MonthlyPoint) (fc : List ForecastPoint)
    (horizon : Nat) (hms : ms ≠ []) (hlen : fc.length = ms.length + horizon) :
    inSample fc ms.length = (fc.take ms.length).map (fun p => p.yhat)
    ∧ (inSample fc ms.length).length = ms.length
    ∧ ((ms.map fun p => p.total_sales).zip (inSample fc ms.length)).length
        = ms.length := by
  refine ⟨rfl, ?_, ?_⟩
  · unfold inSample
    rw [List.length_map, List.length_take]
    omega
  · rw [List.length_zip, List.length_map]
    unfold inSample
    rw [List.length_map, List.length_take]
    omega

/-- C10 witness: one historical month and a two-row forecast give a
one-term MAPE point set. -/
theorem C10_witness :
    (inSample [ForecastPoint.mk (Date.mk 2020 1 1) 5 4 6,
      ForecastPoint.mk (Date.mk 2020 2 1) 7 6 8]
      [MonthlyPoint.mk (Date.mk 2020 1 1) 9].length).length
      = [MonthlyPoint.mk (Date.mk 2020 1 1) 9].length :=
  (C10_positional [MonthlyPoint.mk (Date.mk 2020 1 1) 9]
    [ForecastPoint.mk (Date.mk 2020 1 1) 5 4 6,
      ForecastPoint.mk (Date.mk 2020 2 1) 7 6 8] 1 (by decide) rfl).2.1

end SalesApp
